import Mathlib

/-!
Verification of the JuggleHub real-time tracking engine (`src/engine`).

Shallow embedding conventions:
* C++ `float`/`double` values are modelled as `ℚ` (exact arithmetic);
  `cv::Point2f` becomes `ℚ × ℚ` and `cv::Scalar` HSV triples become `ℚ × ℚ × ℚ`.
* The distance test `sqrt(dx²+dy²) < 80` of `BallTracker::calculateDistance`
  is modelled by the equivalent squared comparison `dx²+dy² < 6400`
  (both sides are nonnegative, and squaring is monotone on nonnegatives).
* External collaborators (the depth camera's `get_distance`, the RealSense
  deprojection, OpenCV's `NMSBoxes`) are parameters of the embedded functions.
* Side effects (UDP datagrams, enqueued commands, module setup/cleanup calls)
  are materialised as values returned by the embedded functions.
-/

namespace JuggleHub

/-! ## BallTracker: centroid merging (`BallTracker::mergeNearbyDetections`) -/

/-- Squared Euclidean distance between two 2-D points.  `calculateDistance`
in `BallTracker.cpp` returns `sqrt(dx²+dy²)`; every use compares it with the
threshold 80, which is equivalent to comparing `dist2` with 6400. -/
def dist2 (p q : ℚ × ℚ) : ℚ :=
  (p.1 - q.1) * (p.1 - q.1) + (p.2 - q.2) * (p.2 - q.2)

/-- The merge-distance threshold squared: `MERGE_DISTANCE_THRESHOLD = 80.0`
from `BallTracker.hpp`, squared because `dist2` is the squared distance. -/
def MERGE_DISTANCE_THRESHOLD_SQ : ℚ := 6400

/-- The inner `j` loop of `BallTracker::mergeNearbyDetections` (lines 43-59):
scanning the not-yet-used centers once in order, a center joins the cluster
if it is within the threshold of any point already in the cluster (the
cluster grows during the scan); the others are left, in order, for later
outer iterations.  Returns (final cluster, leftover centers). -/
def growCluster : List (ℚ × ℚ) → List (ℚ × ℚ) → List (ℚ × ℚ) × List (ℚ × ℚ)
  | cluster, [] => (cluster, [])
  | cluster, p :: rest =>
    if cluster.any (fun c => decide (dist2 p c < MERGE_DISTANCE_THRESHOLD_SQ)) then
      growCluster (cluster ++ [p]) rest
    else
      let r := growCluster cluster rest
      (r.1, p :: r.2)

/-- Arithmetic mean of a cluster (lines 61-68 of `BallTracker.cpp`). -/
def centroid (cluster : List (ℚ × ℚ)) : ℚ × ℚ :=
  ((cluster.map Prod.fst).sum / cluster.length, (cluster.map Prod.snd).sum / cluster.length)

/-- Fuelled outer loop of `mergeNearbyDetections`: each step seeds a cluster
with the first unused center, grows it with `growCluster`, emits the cluster
centroid, and continues on the leftovers.  The fuel only bounds the number of
outer iterations; `mergeAux_congr` below shows any fuel at least the list
length gives the same result, so the `0, _ :: _` branch is never taken from
`mergeNearbyDetections`. -/
def mergeAux : ℕ → List (ℚ × ℚ) → List (ℚ × ℚ)
  | _, [] => []
  | 0, _ :: _ => []
  | fuel + 1, p :: rest =>
    let r := growCluster [p] rest
    centroid r.1 :: mergeAux fuel r.2

/-- `BallTracker::mergeNearbyDetections` (lines 28-74). -/
def mergeNearbyDetections (centers : List (ℚ × ℚ)) : List (ℚ × ℚ) :=
  mergeAux centers.length centers

/-- A concrete input refuting idempotence of the merge pass: the four
collinear points are chained into one cluster with centroid (0,105), the
fifth point (72,105) is farther than 80 from each of the four members
(72² + 35² = 6409 > 6400) so it stays alone, but it is only 72 away from
the emitted centroid, so a second pass merges further. -/
def mergeCounterInput : List (ℚ × ℚ) :=
  [(0, 0), (0, 70), (0, 140), (0, 210), (72, 105)]

/-! ## BallTracker: depth averaging and detection gating -/

/-- The depth frame collaborator: dimensions plus the `get_distance` lookup
(`rs2::depth_frame`), returning meters as a rational. -/
structure DepthFrame where
  width : ℤ
  height : ℤ
  dist : ℤ → ℤ → ℚ

/-- Inclusive integer range `[lo, hi]` as a list (empty when `hi < lo`),
modelling a C++ `for (v = lo; v <= hi; ++v)` loop. -/
def rangeInt (lo hi : ℤ) : List ℤ :=
  (List.range (hi + 1 - lo).toNat).map (fun i => lo + i)

/-- The pixel coordinates visited by `BallTracker::getAveragedDepth`
(lines 151-157): the patch around `(x, y)` clamped to the frame, row by row.
-/
def patchCoords (df : DepthFrame) (x y patch : ℤ) : List (ℤ × ℤ) :=
  let start_x := max 0 (x - patch / 2)
  let end_x := min (df.width - 1) (x + patch / 2)
  let start_y := max 0 (y - patch / 2)
  let end_y := min (df.height - 1) (y + patch / 2)
  (rangeInt start_y end_y).flatMap (fun cy => (rangeInt start_x end_x).map (fun cx => (cx, cy)))

/-- `BallTracker::getAveragedDepth` (lines 147-167): accumulate the strictly
positive depth samples of the patch into a running (total, count) and return
`total / count`, or 0 when no sample was valid. -/
def getAveragedDepth (df : DepthFrame) (x y patch : ℤ) : ℚ :=
  let acc :=
    (patchCoords df x y patch).foldl
      (fun (tc : ℚ × ℕ) c =>
        let depth := df.dist c.1 c.2
        if 0 < depth then (tc.1 + depth, tc.2 + 1) else tc)
      (0, 0)
  if 0 < acc.2 then acc.1 / (acc.2 : ℚ) else 0

/-- The strictly positive depth samples of the patch, in visit order. -/
def validDepths (df : DepthFrame) (x y patch : ℤ) : List ℚ :=
  ((patchCoords df x y patch).map (fun c => df.dist c.1 c.2)).filter (fun d => decide (0 < d))

/-- `MAX_DEPTH = 3.0f` from `BallTracker.hpp` (meters). -/
def MAX_DEPTH : ℚ := 3

/-- Truncation toward zero, the semantics of C++ `static_cast<int>` /
`static_cast<uint8_t>` on a floating value. -/
def truncQ (q : ℚ) : ℤ :=
  if 0 ≤ q then ⌊q⌋ else -⌊-q⌋

/-- One detection of the classical tracker (`BallDetection` in
`BallTracker.hpp`). -/
structure BallDetection where
  id : String
  color_name : String
  center : ℚ × ℚ
  world : ℚ × ℚ × ℚ
  confidence : ℚ
  is_held : Bool
  timestamp_us : ℕ
deriving DecidableEq

/-- The per-candidate body of `BallTracker::detectBalls` (lines 343-371):
truncate the merged center, require it inside the color frame, average the
depth over a 5×5 patch, require `0 < depth < MAX_DEPTH`, then deproject and
build the detection.  `deproject` stands for the external
`rs2_deproject_pixel_to_point`. -/
def processCenter (cols rows : ℤ) (df : DepthFrame)
    (deproject : ℚ × ℚ → ℚ → ℚ × ℚ × ℚ) (color_name : String) (timestamp_us : ℕ)
    (center : ℚ × ℚ) : Option BallDetection :=
  let x := truncQ center.1
  let y := truncQ center.2
  if 0 ≤ x ∧ x < cols ∧ 0 ≤ y ∧ y < rows then
    let depth := getAveragedDepth df x y 5
    if 0 < depth ∧ depth < MAX_DEPTH then
      some { id := color_name ++ "_" ++ toString timestamp_us
             color_name := color_name
             center := center
             world := deproject center depth
             confidence := 1
             is_held := false
             timestamp_us := timestamp_us }
    else none
  else none

/-- The outer loops of `BallTracker::detectBalls` (lines 339-373): for each
color, the merged centers produced by the vision pipeline
(`detectBallsForColor`, whose OpenCV internals are an external collaborator
here) are folded through `processCenter`; rejected candidates are dropped
silently. -/
def detectBallsFrom (cols rows : ℤ) (df : DepthFrame)
    (deproject : ℚ × ℚ → ℚ → ℚ × ℚ × ℚ) (timestamp_us : ℕ)
    (colorCenters : List (String × List (ℚ × ℚ))) : List BallDetection :=
  colorCenters.flatMap
    (fun cc => cc.2.filterMap (processCenter cols rows df deproject cc.1 timestamp_us))

/-! ## Protobuf value types shared by the engine and the modules -/

/-- Command discriminator (`juggler::v1::CommandRequest::Type`). -/
inductive CommandType
  | LOAD_MODULE
  | UNLOAD_MODULE
  | CONFIGURE_MODULE
  | SEND_COLOR_COMMAND
  | UNKNOWN
deriving DecidableEq

/-- Payload of a send-color command: target identity plus RGB triple
(protobuf `uint32` components, hence `ℕ`). -/
structure ColorCommand where
  ball_id : String
  r : ℕ
  g : ℕ
  b : ℕ
deriving DecidableEq

/-- `juggler::v1::CommandRequest`: discriminated kind plus the payload
fields used by the engine and the modules. -/
structure CommandRequest where
  ctype : CommandType
  module_name : String
  module_args : List (String × String)
  color_command : ColorCommand
deriving DecidableEq

/-- `juggler::v1::CommandResponse`: success flag and message. -/
structure CommandResponse where
  success : Bool
  message : String
deriving DecidableEq

/-- One tracked ball of a frame record (`juggler::v1::Ball`): identity,
color label, 3-D position. -/
structure Ball where
  id : String
  color_name : String
  position_3d : ℚ × ℚ × ℚ
deriving DecidableEq

/-- `juggler::v1::FrameData`: the per-frame record the engine hands to the
active module. -/
structure FrameData where
  timestamp_us : ℕ
  balls : List Ball
deriving DecidableEq

/-! ## PositionToRgbModule -/

/-- `std::clamp(v, lo, hi)`. -/
def clampQ (v lo hi : ℚ) : ℚ :=
  min (max v lo) hi

/-- One axis of the coordinate-to-RGB mapping of
`PositionToRgbModule::update` (lines 44-56): shift by +0.5, clamp into
[0, 1], scale by 255 and cast to `uint8_t` (truncation; the value is already
in [0, 255]). -/
def posToByte (raw : ℚ) : ℕ :=
  (truncQ (clampQ (raw + 1/2) 0 1 * 255)).toNat

/-- `PositionToRgbModule::update` (lines 12-74): find the first ball
labelled "green"; if none, do nothing; otherwise enqueue exactly one
send-color command for the configured target with the mapped RGB triple.
The returned list holds the commands passed to the enqueue callback. -/
def PositionToRgbModule.update (target_ball_id : String) (fd : FrameData) :
    List CommandRequest :=
  match fd.balls.find? (fun b => b.color_name == "green") with
  | none => []
  | some green_ball =>
    [{ ctype := .SEND_COLOR_COMMAND
       module_name := ""
       module_args := []
       color_command :=
         { ball_id := target_ball_id
           r := posToByte green_ball.position_3d.1
           g := posToByte green_ball.position_3d.2.1
           b := posToByte green_ball.position_3d.2.2 } }]

/-! ## UdpBallColorModule (the relay module) -/

/-- One UDP datagram as observably sent: destination IP string plus payload
bytes (each byte a `ℕ` below 256 by construction). -/
structure SentPacket where
  ip : String
  data : List ℕ
deriving DecidableEq

/-- `UdpBallColorModule::update` (lines 16-65): for every ball of the frame
record, build the fixed 12-byte blue color packet and the 10-byte brightness
packet, and send brightness first then color to `10.54.136.<ball id>`.  The
inter-packet delay is a timing effect outside this embedding. -/
def UdpBallColorModule.update (fd : FrameData) : List SentPacket :=
  fd.balls.foldl
    (fun sent ball =>
      let packet : List ℕ := [66, 0, 0, 0, 0, 0, 0, 0, 0x0a, 0, 0, 255]
      let ball_ip := "10.54.136." ++ ball.id
      let brightness_packet : List ℕ := [66, 0, 0, 0, 0, 0, 0, 0, 0x10, 7]
      sent ++ [{ ip := ball_ip, data := brightness_packet }, { ip := ball_ip, data := packet }])
    []

/-- The brightness packet of `UdpBallColorModule::update` (lines 42-52):
header `[66][uint32 0][0][uint16 0]` then command 0x10 and level 7. -/
def brightnessPacket : List ℕ := [66, 0, 0, 0, 0, 0, 0, 0, 0x10, 7]

/-- The hard-coded blue color packet of `UdpBallColorModule::update`
(lines 20-32). -/
def bluePacket : List ℕ := [66, 0, 0, 0, 0, 0, 0, 0, 0x0a, 0, 0, 255]

/-- `UdpBallColorModule::processCommand` (lines 71-95): only a
`SEND_COLOR_COMMAND` is handled; it sends one packet, header
`[66][uint32 0][byte 0][uint16 0]` then `[0x0a][R][G][B]`, to
`10.54.136.<ball_id>`.  The `static_cast<unsigned char>` of the protobuf
`uint32` components is `% 256`. -/
def UdpBallColorModule.processCommand (command : CommandRequest) : List SentPacket :=
  if command.ctype = .SEND_COLOR_COMMAND then
    let cc := command.color_command
    let ball_ip := "10.54.136." ++ cc.ball_id
    [{ ip := ball_ip
       data := [66, 0, 0, 0, 0, 0, 0, 0, 0x0a, cc.r % 256, cc.g % 256, cc.b % 256] }]
  else []

/-- The packet layout of `UdpSender::send_rgb` (`UdpSender.cpp` lines
53-69), taking byte-valued components. -/
def send_rgb_packet (r g b : ℕ) : List ℕ :=
  [66, 0, 0, 0, 0, 0, 0, 0, 0x0a, r, g, b]

/-! ## Engine command processing -/

/-- The instantiable output-module variants, with the state they carry:
`PositionToRgbModule` holds its configurable target identity (constructor
default "201"), `UdpBallColorModule` holds no configurable state. -/
inductive Module
  | udpBallColorModule
  | positionToRgbModule (target_ball_id : String)
deriving DecidableEq

/-- `Engine::create_module` (`Engine.cpp` lines 333-342): name-to-factory
dispatch; unknown names yield `nullptr` (here `none`). -/
def create_module (command : CommandRequest) : Option Module :=
  if command.module_name = "UdpBallColorModule" then some .udpBallColorModule
  else if command.module_name = "PositionToRgbModule" then some (.positionToRgbModule "201")
  else none

/-- Lifecycle calls made by the command processor, recorded as events. -/
inductive ModuleEvent
  | setupCalled (m : Module)
  | cleanupCalled (m : Module)
deriving DecidableEq

/-- The state change a module's `processCommand` performs:
`PositionToRgbModule::processCommand` (lines 83-94) updates its target id on
a `CONFIGURE_MODULE` carrying a `target_ball_id` argument;
`UdpBallColorModule::processCommand` changes no state. -/
def Module.applyCommand : Module → CommandRequest → Module
  | .udpBallColorModule, _ => .udpBallColorModule
  | .positionToRgbModule tid, cmd =>
    if cmd.ctype = .CONFIGURE_MODULE then
      match (cmd.module_args.find? (fun kv => kv.1 == "target_ball_id")).map (fun kv => kv.2) with
      | some v => .positionToRgbModule v
      | none => .positionToRgbModule tid
    else .positionToRgbModule tid

/-- The external-command switch of `Engine::processCommands` (`Engine.cpp`
lines 251-285), as a function of the active-module slot and the received
command.  Returns the new slot, the response sent back, and the lifecycle
events.  Note the `LOAD_MODULE` branch assigns
`active_module_ = create_module(command)` before testing it, so an unknown
name overwrites the slot with null. -/
def processExternalCommand (active_module : Option Module) (command : CommandRequest) :
    Option Module × CommandResponse × List ModuleEvent :=
  match command.ctype with
  | .LOAD_MODULE =>
    match create_module command with
    | some m =>
      (some m, { success := true, message := command.module_name ++ " loaded" },
        [.setupCalled m])
    | none =>
      (none, { success := false, message := "Unknown module: " ++ command.module_name }, [])
  | .UNLOAD_MODULE =>
    match active_module with
    | some m =>
      (none, { success := true, message := "Module unloaded" }, [.cleanupCalled m])
    | none =>
      (none, { success := false, message := "No active module" }, [])
  | .CONFIGURE_MODULE =>
    match active_module with
    | some m =>
      (some (m.applyCommand command),
        { success := true, message := "Module configuration sent to " ++ command.module_name }, [])
    | none =>
      (none, { success := false, message := "No active module to configure." }, [])
  | _ => (active_module, { success := false, message := "Unknown command" }, [])

/-! ## BallTracker settings persistence -/

/-- A color profile (`ColorRange` in `BallTracker.hpp`): name, first HSV
interval, and a second interval whose disabled state is the all-negative
sentinel (first component negative is what the code tests). -/
structure ColorRange where
  name : String
  min_hsv : ℚ × ℚ × ℚ
  max_hsv : ℚ × ℚ × ℚ
  min_hsv2 : ℚ × ℚ × ℚ
  max_hsv2 : ℚ × ℚ × ℚ
deriving DecidableEq

/-- One profile's entry of the settings document: the first interval always,
the second only when present in the document. -/
structure SettingsEntry where
  min_hsv : ℚ × ℚ × ℚ
  max_hsv : ℚ × ℚ × ℚ
  hsv2 : Option ((ℚ × ℚ × ℚ) × (ℚ × ℚ × ℚ))
deriving DecidableEq

/-- The entry `BallTracker::saveSettings` (lines 198-211) writes for one
profile: `min_hsv`/`max_hsv` always, `min_hsv2`/`max_hsv2` only when
`min_hsv2[0] >= 0`. -/
def settingsEntryOf (c : ColorRange) : SettingsEntry :=
  { min_hsv := c.min_hsv
    max_hsv := c.max_hsv
    hsv2 := if 0 ≤ c.min_hsv2.1 then some (c.min_hsv2, c.max_hsv2) else none }

/-- `BallTracker::saveSettings`: the document keyed by profile name. -/
def saveSettings (colors : List ColorRange) : List (String × SettingsEntry) :=
  colors.map (fun c => (c.name, settingsEntryOf c))

/-- Key lookup in the settings document (`j.contains(color.name)` followed
by `j[color.name]` in `loadSettings`). -/
def docFind (doc : List (String × SettingsEntry)) (name : String) : Option SettingsEntry :=
  (doc.find? (fun e => e.1 == name)).map (fun e => e.2)

/-- The per-profile body of `BallTracker::loadSettings` (lines 179-189):
a profile present in the document gets its first interval overwritten, and
its second interval overwritten only when the document has `min_hsv2`;
otherwise the profile is untouched. -/
def loadColor (doc : List (String × SettingsEntry)) (c : ColorRange) : ColorRange :=
  match docFind doc c.name with
  | none => c
  | some e =>
    match e.hsv2 with
    | none => { c with min_hsv := e.min_hsv, max_hsv := e.max_hsv }
    | some p =>
      { name := c.name, min_hsv := e.min_hsv, max_hsv := e.max_hsv,
        min_hsv2 := p.1, max_hsv2 := p.2 }

/-- `BallTracker::loadSettings` over the tracker's profile list. -/
def loadSettings (doc : List (String × SettingsEntry)) (colors : List ColorRange) :
    List ColorRange :=
  colors.map (loadColor doc)

/-- Pointwise compatibility of a saved profile list with the target tracker's
profiles: same names in the same order, and wherever the saved profile's
second interval is disabled (not written to the document) the target profile
already carries that same second interval. -/
def roundTripCompatible : List ColorRange → List ColorRange → Bool
  | [], [] => true
  | c :: cs, t :: ts =>
    decide (c.name = t.name) &&
      (decide (0 ≤ c.min_hsv2.1) ||
        (decide (t.min_hsv2 = c.min_hsv2) && decide (t.max_hsv2 = c.max_hsv2))) &&
      roundTripCompatible cs ts
  | _, _ => false

/-- A saved profile list whose only profile has the second interval
disabled. -/
def savedProfiles0 : List ColorRange :=
  [{ name := "pink", min_hsv := (150, 150, 90), max_hsv := (170, 255, 255),
     min_hsv2 := (-1, -1, -1), max_hsv2 := (-1, -1, -1) }]

/-- A target tracker holding the same profile name but with an enabled
second interval; loading the saved document leaves that stale second
interval in place. -/
def targetProfiles0 : List ColorRange :=
  [{ name := "pink", min_hsv := (0, 0, 0), max_hsv := (1, 1, 1),
     min_hsv2 := (0, 0, 0), max_hsv2 := (10, 10, 10) }]

/-! ## DNNTracker post-processing -/

/-- A post-processed detection (`Object` in `DNNTracker.hpp`): rect as
(x, y, w, h), class label, confidence. -/
structure DnnObject where
  rect : ℚ × ℚ × ℚ × ℚ
  label : ℤ
  prob : ℚ
deriving DecidableEq

/-- Model-input and original-frame dimensions used by
`DNNTracker::postprocess` for rescaling. -/
structure DnnParams where
  modelW : ℚ
  modelH : ℚ
  origW : ℚ
  origH : ℚ

/-- The class-selection loop of `DNNTracker::postprocess` (lines 92-99):
`max_score` starts at 0 and `class_id` at −1; a strictly greater score at
feature index `j` (starting from 4) takes over with class id `j − 4`. -/
def bestClassAux : List ℚ → ℚ → ℤ → ℤ → ℚ × ℤ
  | [], max_score, class_id, _ => (max_score, class_id)
  | s :: rest, max_score, class_id, j =>
    if max_score < s then bestClassAux rest s (j - 4) (j + 1)
    else bestClassAux rest max_score class_id (j + 1)

/-- Highest score and its class id over the class scores of one candidate
row (features from index 4 on). -/
def bestClass (scores : List ℚ) : ℚ × ℤ :=
  bestClassAux scores 0 (-1) 4

/-- The maximal class score of a candidate row, with the loop's initial 0. -/
def maxScoreOf (row : List ℚ) : ℚ :=
  (row.drop 4).foldl max 0

/-- The confidence threshold of `DNNTracker::postprocess` (0.25f). -/
def confidence_threshold : ℚ := 1/4

/-- The NMS IoU threshold of `DNNTracker::postprocess` (0.45f). -/
def nms_threshold : ℚ := 9/20

/-- The per-candidate body of `DNNTracker::postprocess` (lines 87-123): pick
the best class, keep the candidate only above the confidence threshold,
convert the center-size box `(cx, cy, w, h)` to corner form and rescale to
the original frame resolution. -/
def candidateOf (pr : DnnParams) (row : List ℚ) : Option DnnObject :=
  let best := bestClass (row.drop 4)
  if confidence_threshold < best.1 then
    let cx := row.getD 0 0
    let cy := row.getD 1 0
    let w := row.getD 2 0
    let h := row.getD 3 0
    let x := cx - w / 2
    let y := cy - h / 2
    let x_scale := pr.origW / pr.modelW
    let y_scale := pr.origH / pr.modelH
    some { rect := (x * x_scale, y * y_scale, w * x_scale, h * y_scale)
           label := best.2
           prob := best.1 }
  else none

/-- `DNNTracker::postprocess` (lines 65-138) with OpenCV's `NMSBoxes` as an
external collaborator `nms` returning the selected indices: build the
parallel box/confidence/class vectors of the kept candidates, run NMS with
the confidence and IoU thresholds, and assemble the selected objects. -/
def postprocess (nms : List (ℚ × ℚ × ℚ × ℚ) → List ℚ → ℚ → ℚ → List ℕ)
    (pr : DnnParams) (rows : List (List ℚ)) : List DnnObject :=
  let cands := rows.filterMap (candidateOf pr)
  let bboxes := cands.map (fun c => c.rect)
  let confidences := cands.map (fun c => c.prob)
  let class_ids := cands.map (fun c => c.label)
  let indices := nms bboxes confidences confidence_threshold nms_threshold
  indices.map
    (fun idx =>
      { rect := bboxes.getD idx (0, 0, 0, 0)
        label := class_ids.getD idx 0
        prob := confidences.getD idx 0 })

/-! ## Concrete instances used by counterexamples and witnesses -/

/-- A load command naming a module variant that does not exist. -/
def loadBogusCmd : CommandRequest :=
  { ctype := .LOAD_MODULE, module_name := "SomeOtherModule", module_args := [],
    color_command := { ball_id := "", r := 0, g := 0, b := 0 } }

/-- An unload command. -/
def unloadCmd : CommandRequest :=
  { ctype := .UNLOAD_MODULE, module_name := "", module_args := [],
    color_command := { ball_id := "", r := 0, g := 0, b := 0 } }

/-- A send-color command carrying RGB (17, 34, 51) for device "203". -/
def colorCmd0 : CommandRequest :=
  { ctype := .SEND_COLOR_COMMAND, module_name := "", module_args := [],
    color_command := { ball_id := "203", r := 17, g := 34, b := 51 } }

/-- A frame record holding one green ball at the position interval's upper
corner. -/
def frameGreen0 : FrameData :=
  { timestamp_us := 1000,
    balls := [{ id := "7", color_name := "green", position_3d := (1/2, 1/2, 1/2) }] }

/-- A 640×480 depth frame whose samples are 1 m on one row of the probed
patch and 0 (invalid) elsewhere. -/
def depthFrame0 : DepthFrame :=
  { width := 640, height := 480, dist := fun _ cy => if cy = 9 then 1 else 0 }

/-- A trivial deprojection collaborator used by witnesses. -/
def deproject0 : ℚ × ℚ → ℚ → ℚ × ℚ × ℚ :=
  fun p d => (p.1 * d, p.2 * d, d)

/-- An NMS collaborator that keeps every box (used by witnesses); it plainly
returns in-range indices. -/
def nmsAll : List (ℚ × ℚ × ℚ × ℚ) → List ℚ → ℚ → ℚ → List ℕ :=
  fun bs _ _ _ => List.range bs.length

/-- A single candidate row with four box features and one class score. -/
def dnnRow0 : List ℚ :=
  [320, 240, 40, 20, 9/10]

/-- Square model input, 640×480 original frame. -/
def dnnParams0 : DnnParams :=
  { modelW := 640, modelH := 640, origW := 640, origH := 480 }

/-! ## Lemmas about the merge pass -/

theorem dist2_comm (p q : ℚ × ℚ) : dist2 p q = dist2 q p := by
  simp only [dist2]; ring

theorem growCluster_snd_length (l : List (ℚ × ℚ)) :
    ∀ cluster, ((growCluster cluster l).2).length ≤ l.length := by
  induction l with
  | nil => intro cluster; simp [growCluster]
  | cons p rest ih =>
    intro cluster
    simp only [growCluster]
    split
    · exact Nat.le_succ_of_le (ih (cluster ++ [p]))
    · simpa using Nat.succ_le_succ (ih cluster)

theorem mergeAux_congr (f₁ : ℕ) :
    ∀ f₂ (l : List (ℚ × ℚ)), l.length ≤ f₁ → l.length ≤ f₂ →
      mergeAux f₁ l = mergeAux f₂ l := by
  induction f₁ with
  | zero =>
    intro f₂ l h₁ _
    have : l = [] := List.length_eq_zero.mp (Nat.le_zero.mp h₁)
    subst this
    cases f₂ <;> rfl
  | succ f ih =>
    intro f₂ l h₁ h₂
    cases l with
    | nil => cases f₂ <;> rfl
    | cons p rest =>
      cases f₂ with
      | zero => exact absurd h₂ (by simp)
      | succ f' =>
        simp only [mergeAux]
        have hlen := growCluster_snd_length rest [p]
        have h₁' : rest.length ≤ f := by simp only [List.length_cons] at h₁; omega
        have h₂' : rest.length ≤ f' := by simp only [List.length_cons] at h₂; omega
        exact congrArg _ (ih f' _ (le_trans hlen h₁') (le_trans hlen h₂'))

theorem mergeNearbyDetections_cons (p : ℚ × ℚ) (rest : List (ℚ × ℚ)) :
    mergeNearbyDetections (p :: rest) =
      centroid (growCluster [p] rest).1 :: mergeNearbyDetections (growCluster [p] rest).2 := by
  simp only [mergeNearbyDetections, List.length_cons, mergeAux]
  exact congrArg _ (mergeAux_congr rest.length _ _ (growCluster_snd_length rest [p]) le_rfl)

theorem growCluster_of_far (l : List (ℚ × ℚ)) :
    ∀ cluster, (∀ q ∈ l, ∀ c ∈ cluster, ¬ dist2 q c < MERGE_DISTANCE_THRESHOLD_SQ) →
      growCluster cluster l = (cluster, l) := by
  induction l with
  | nil => intro cluster _; rfl
  | cons p rest ih =>
    intro cluster h
    have hp : (cluster.any fun c => decide (dist2 p c < MERGE_DISTANCE_THRESHOLD_SQ)) = false := by
      simp only [List.any_eq_false, decide_eq_true_eq]
      exact fun c hc => h p (by simp) c hc
    simp only [growCluster, hp, Bool.false_eq_true, if_false]
    rw [ih cluster (fun q hq c hc => h q (List.mem_cons_of_mem _ hq) c hc)]

theorem centroid_singleton (p : ℚ × ℚ) : centroid [p] = p := by
  simp [centroid]

theorem mergeNearbyDetections_of_separated (l : List (ℚ × ℚ))
    (h : l.Pairwise (fun p q => MERGE_DISTANCE_THRESHOLD_SQ ≤ dist2 p q)) :
    mergeNearbyDetections l = l := by
  induction l with
  | nil => rfl
  | cons p rest ih =>
    rw [mergeNearbyDetections_cons]
    rw [List.pairwise_cons] at h
    have hfar : growCluster [p] rest = ([p], rest) := by
      apply growCluster_of_far
      intro q hq c hc
      rw [List.mem_singleton] at hc
      subst hc
      rw [dist2_comm]
      exact not_lt.mpr (h.1 q hq)
    rw [hfar, centroid_singleton, ih h.2]

/-! ## Claim theorems: C2 (merge-pass idempotence) -/

unseal Rat.mul Rat.add Rat.sub Rat.inv in
/-- Claim C2 counterexample: the merge pass is not idempotent.  On
`mergeCounterInput` the first pass yields [(0,105), (72,105)], whose two
points are only 72 px apart, so a second pass reduces them further to
[(36,105)]. -/
theorem mergeNearbyDetections_not_idempotent :
    mergeNearbyDetections (mergeNearbyDetections mergeCounterInput) ≠
      mergeNearbyDetections mergeCounterInput := by
  decide

/-- Claim C2, amended: the merge pass is the identity (hence idempotent) on
every list of centers that are pairwise at least the merge threshold (80 px)
apart; in general, re-running the merge on its own output can merge further,
because emitted cluster centroids may lie closer than the threshold. -/
theorem mergeNearbyDetections_idempotent_on_separated (l : List (ℚ × ℚ))
    (h : l.Pairwise (fun p q => MERGE_DISTANCE_THRESHOLD_SQ ≤ dist2 p q)) :
    mergeNearbyDetections (mergeNearbyDetections l) = mergeNearbyDetections l := by
  rw [mergeNearbyDetections_of_separated l h, mergeNearbyDetections_of_separated l h]

unseal Rat.mul Rat.add Rat.sub Rat.inv in
/-- Witness for C2's amended theorem at the concrete separated list
[(0,0), (100,0)]. -/
theorem mergeNearbyDetections_idempotent_on_separated_witness :
    mergeNearbyDetections (mergeNearbyDetections [((0 : ℚ), (0 : ℚ)), (100, 0)]) =
      mergeNearbyDetections [((0 : ℚ), (0 : ℚ)), (100, 0)] :=
  mergeNearbyDetections_idempotent_on_separated _ (by decide)

/-! ## Lemmas about depth averaging -/

theorem depth_foldl (l : List ℚ) :
    ∀ (t : ℚ) (c : ℕ),
      l.foldl (fun (tc : ℚ × ℕ) d => if 0 < d then (tc.1 + d, tc.2 + 1) else tc) (t, c) =
        (t + (l.filter (fun d => decide (0 < d))).sum,
          c + (l.filter (fun d => decide (0 < d))).length) := by
  induction l with
  | nil => intro t c; simp
  | cons d rest ih =>
    intro t c
    by_cases hd : 0 < d
    · rw [List.foldl_cons, if_pos hd, ih, List.filter_cons_of_pos (by simpa using hd)]
      simp only [List.sum_cons, List.length_cons, Prod.mk.injEq]
      exact ⟨by ring, by omega⟩
    · rw [List.foldl_cons, if_neg hd, ih, List.filter_cons_of_neg (by simpa using hd)]

theorem getAveragedDepth_foldl (df : DepthFrame) (x y patch : ℤ) :
    getAveragedDepth df x y patch =
      if 0 < (validDepths df x y patch).length then
        (validDepths df x y patch).sum / ((validDepths df x y patch).length : ℚ)
      else 0 := by
  have h := depth_foldl ((patchCoords df x y patch).map (fun c => df.dist c.1 c.2)) 0 0
  rw [List.foldl_map] at h
  simp only [getAveragedDepth, validDepths, h]
  simp

theorem getAveragedDepth_eq_mean (df : DepthFrame) (x y patch : ℤ)
    (h : validDepths df x y patch ≠ []) :
    getAveragedDepth df x y patch =
      (validDepths df x y patch).sum / ((validDepths df x y patch).length : ℚ) := by
  rw [getAveragedDepth_foldl, if_pos (List.length_pos.mpr h)]

theorem getAveragedDepth_eq_zero (df : DepthFrame) (x y patch : ℤ)
    (h : validDepths df x y patch = []) :
    getAveragedDepth df x y patch = 0 := by
  rw [getAveragedDepth_foldl, h]
  simp

theorem validDepths_pos (df : DepthFrame) (x y patch : ℤ) :
    ∀ d ∈ validDepths df x y patch, 0 < d := by
  intro d hd
  unfold validDepths at hd
  exact of_decide_eq_true (List.mem_filter.mp hd).2

theorem getAveragedDepth_pos (df : DepthFrame) (x y patch : ℤ)
    (h : validDepths df x y patch ≠ []) :
    0 < getAveragedDepth df x y patch := by
  rw [getAveragedDepth_eq_mean df x y patch h]
  apply div_pos
  · exact List.sum_pos _ (validDepths_pos df x y patch) h
  · exact_mod_cast List.length_pos.mpr h

/-! ## Claim theorems: C3 (depth averaging and range gating) -/

/-- Claim C3: for an in-frame merged center, the depth estimate over the 5×5
patch is the arithmetic mean of only the strictly positive samples of the
patch; the candidate produces no detection when the patch has no valid
sample or the averaged depth is not below `MAX_DEPTH` (3.0 m); and with a
valid sample and an average below 3.0 m the detection is produced. -/
theorem detect_depth_gating (df : DepthFrame) (cols rows : ℤ)
    (deproject : ℚ × ℚ → ℚ → ℚ × ℚ × ℚ) (name : String) (ts : ℕ) (center : ℚ × ℚ)
    (hin : 0 ≤ truncQ center.1 ∧ truncQ center.1 < cols ∧
      0 ≤ truncQ center.2 ∧ truncQ center.2 < rows) :
    (validDepths df (truncQ center.1) (truncQ center.2) 5 ≠ [] →
      getAveragedDepth df (truncQ center.1) (truncQ center.2) 5 =
        (validDepths df (truncQ center.1) (truncQ center.2) 5).sum /
          ((validDepths df (truncQ center.1) (truncQ center.2) 5).length : ℚ)) ∧
    (validDepths df (truncQ center.1) (truncQ center.2) 5 = [] ∨
        MAX_DEPTH ≤ getAveragedDepth df (truncQ center.1) (truncQ center.2) 5 →
      processCenter cols rows df deproject name ts center = none) ∧
    (validDepths df (truncQ center.1) (truncQ center.2) 5 ≠ [] →
      getAveragedDepth df (truncQ center.1) (truncQ center.2) 5 < MAX_DEPTH →
      processCenter cols rows df deproject name ts center =
        some { id := name ++ "_" ++ toString ts
               color_name := name
               center := center
               world := deproject center
                 (getAveragedDepth df (truncQ center.1) (truncQ center.2) 5)
               confidence := 1
               is_held := false
               timestamp_us := ts }) := by
  refine ⟨getAveragedDepth_eq_mean df _ _ 5, ?_, ?_⟩
  · intro h
    simp only [processCenter]
    rw [if_pos hin]
    rcases h with h | h
    · rw [getAveragedDepth_eq_zero df _ _ 5 h]
      simp
    · rw [if_neg (fun hc => absurd h (not_le.mpr hc.2))]
  · intro h1 h2
    simp only [processCenter]
    rw [if_pos hin, if_pos ⟨getAveragedDepth_pos df _ _ 5 h1, h2⟩]

unseal Rat.mul Rat.add Rat.sub Rat.inv in
/-- Witness for C3 on `depthFrame0` at center (10.5, 10.5): the probed 5×5
patch has exactly five valid samples of 1 m (the `cy = 9` row) among twenty
zero samples, so the average is 1 m and a detection is produced. -/
theorem detect_depth_gating_witness :
    processCenter 640 480 depthFrame0 deproject0 "green" 1000 (21/2, 21/2) =
      some { id := "green" ++ "_" ++ toString 1000
             color_name := "green"
             center := (21/2, 21/2)
             world := deproject0 (21/2, 21/2)
               (getAveragedDepth depthFrame0 (truncQ (21/2)) (truncQ (21/2)) 5)
             confidence := 1
             is_held := false
             timestamp_us := 1000 } :=
  (detect_depth_gating depthFrame0 640 480 deproject0 "green" 1000 (21/2, 21/2)
    (by decide)).2.2 (by decide) (by decide)

/-! ## Claim theorems: C10 (detections stay inside the frame) -/

theorem processCenter_some_inv (cols rows : ℤ) (df : DepthFrame)
    (deproject : ℚ × ℚ → ℚ → ℚ × ℚ × ℚ) (name : String) (ts : ℕ) (center : ℚ × ℚ)
    (d : BallDetection) (h : processCenter cols rows df deproject name ts center = some d) :
    d.center = center ∧ 0 ≤ truncQ center.1 ∧ truncQ center.1 < cols ∧
      0 ≤ truncQ center.2 ∧ truncQ center.2 < rows := by
  simp only [processCenter] at h
  split at h
  · split at h
    · exact ⟨by rw [← Option.some.inj h], by assumption⟩
    · exact absurd h (by simp)
  · exact absurd h (by simp)

/-- Claim C10: every detection returned by the `detectBalls` loop has its
truncated 2-D center inside the color frame, and a merged candidate whose
truncated center lies outside the frame is silently dropped (never becomes
a detection). -/
theorem detectBalls_centers_in_frame (cols rows : ℤ) (df : DepthFrame)
    (deproject : ℚ × ℚ → ℚ → ℚ × ℚ × ℚ) (ts : ℕ)
    (colorCenters : List (String × List (ℚ × ℚ))) :
    (∀ d ∈ detectBallsFrom cols rows df deproject ts colorCenters,
      0 ≤ truncQ d.center.1 ∧ truncQ d.center.1 < cols ∧
        0 ≤ truncQ d.center.2 ∧ truncQ d.center.2 < rows) ∧
    (∀ (name : String) (center : ℚ × ℚ),
      ¬(0 ≤ truncQ center.1 ∧ truncQ center.1 < cols ∧
          0 ≤ truncQ center.2 ∧ truncQ center.2 < rows) →
      processCenter cols rows df deproject name ts center = none) := by
  constructor
  · intro d hd
    simp only [detectBallsFrom, List.mem_flatMap, List.mem_filterMap] at hd
    obtain ⟨cc, _, center, _, hpc⟩ := hd
    have hinv := processCenter_some_inv cols rows df deproject cc.1 ts center d hpc
    rw [hinv.1]
    exact hinv.2
  · intro name center h
    simp only [processCenter]
    rw [if_neg h]

/-- Witness for C10: a candidate whose truncated center (-5, 2) lies left of
the frame is rejected. -/
theorem detectBalls_centers_in_frame_witness :
    processCenter 640 480 depthFrame0 deproject0 "green" 1000 (-5, 2) = none :=
  (detectBalls_centers_in_frame 640 480 depthFrame0 deproject0 1000 []).2 "green" (-5, 2)
    (by decide)

/-! ## Lemmas about the position-to-color mapping -/

theorem posToByte_of_half_le (q : ℚ) (h : 1/2 ≤ q) : posToByte q = 255 := by
  unfold posToByte clampQ
  have h1 : (1 : ℚ) ≤ q + 1/2 := by linarith
  rw [max_eq_left (le_trans zero_le_one h1), min_eq_right h1, one_mul]
  norm_num [truncQ]; rfl

theorem posToByte_of_le_neg_half (q : ℚ) (h : q ≤ -(1/2)) : posToByte q = 0 := by
  unfold posToByte clampQ
  have h1 : q + 1/2 ≤ 0 := by linarith
  rw [max_eq_right h1, min_eq_left zero_le_one, zero_mul]
  norm_num [truncQ]

/-! ## Claim theorems: C4 (position-to-color module) -/

/-- Claim C4: on each update of the position-to-color module, no command is
enqueued when no detection carries the module's label ("green"); when one
does, exactly one send-color command is enqueued for the configured target,
each axis mapped by `posToByte`; the mapping clamps every out-of-range value
(so ≥ +0.5 gives 255 and ≤ −0.5 gives 0), in particular (0.5, 0.5, 0.5) maps
to (255,255,255), (−0.5,−0.5,−0.5) to (0,0,0), and x = 2.0 clamps to 255. -/
theorem positionToRgb_update_spec (target : String) (fd : FrameData) :
    (fd.balls.find? (fun b => b.color_name == "green") = none →
      PositionToRgbModule.update target fd = []) ∧
    (∀ ball, fd.balls.find? (fun b => b.color_name == "green") = some ball →
      PositionToRgbModule.update target fd =
        [{ ctype := .SEND_COLOR_COMMAND
           module_name := ""
           module_args := []
           color_command :=
             { ball_id := target
               r := posToByte ball.position_3d.1
               g := posToByte ball.position_3d.2.1
               b := posToByte ball.position_3d.2.2 } }]) ∧
    (∀ q : ℚ, 1/2 ≤ q → posToByte q = 255) ∧
    (∀ q : ℚ, q ≤ -(1/2) → posToByte q = 0) ∧
    posToByte (1/2) = 255 ∧ posToByte (-(1/2)) = 0 ∧ posToByte 2 = 255 := by
  refine ⟨?_, ?_, posToByte_of_half_le, posToByte_of_le_neg_half,
    posToByte_of_half_le _ le_rfl, posToByte_of_le_neg_half _ le_rfl,
    posToByte_of_half_le 2 (by norm_num)⟩
  · intro h
    simp only [PositionToRgbModule.update, h]
  · intro ball h
    simp only [PositionToRgbModule.update, h]

unseal Rat.mul Rat.add Rat.sub Rat.inv in
/-- Witness for C4 on a frame holding one green ball at (0.5, 0.5, 0.5). -/
theorem positionToRgb_update_spec_witness :
    PositionToRgbModule.update "201" frameGreen0 =
      [{ ctype := .SEND_COLOR_COMMAND
         module_name := ""
         module_args := []
         color_command :=
           { ball_id := "201"
             r := posToByte (1/2)
             g := posToByte (1/2)
             b := posToByte (1/2) } }] :=
  (positionToRgb_update_spec "201" frameGreen0).2.1
    { id := "7", color_name := "green", position_3d := (1/2, 1/2, 1/2) } (by decide)

/-! ## Lemmas about the relay module's update loop -/

theorem foldl_append_pairs {α β : Type} (f g : α → β) :
    ∀ (l : List α) (init : List β),
      l.foldl (fun acc a => acc ++ [f a, g a]) init =
        init ++ l.flatMap (fun a => [f a, g a]) := by
  intro l
  induction l with
  | nil => intro init; simp
  | cons a rest ih =>
    intro init
    rw [List.foldl_cons, ih, List.flatMap_cons]
    simp

theorem flatMap_pairs_length {α β : Type} (f g : α → β) :
    ∀ l : List α, (l.flatMap (fun a => [f a, g a])).length = 2 * l.length := by
  intro l
  induction l with
  | nil => rfl
  | cons a rest ih =>
    rw [List.flatMap_cons]
    simp only [List.length_append, List.length_cons, List.length_nil, ih]
    omega

/-! ## Claim theorems: C5 (relay module update) -/

/-- Claim C5 counterexample: the relay module's `update` is not a no-op.  On
a frame record holding one ball it sends two datagrams (a brightness packet
then the fixed blue color packet) to that ball's derived IP. -/
theorem relay_update_sends_packets :
    UdpBallColorModule.update frameGreen0 ≠ [] ∧
    UdpBallColorModule.update frameGreen0 =
      [{ ip := "10.54.136.7", data := brightnessPacket },
       { ip := "10.54.136.7", data := bluePacket }] := by
  decide

/-- Claim C5, amended: on `update` the relay module does act: for each ball
of the frame record, in order, it sends exactly two datagrams to the IP
derived from the ball's id — the 10-byte brightness packet (command 0x10,
level 7) followed by the fixed 12-byte blue color packet (command 0x0A,
RGB (0,0,255)).  It enqueues no commands (its update has no enqueue
callback), and only an empty frame record produces no sends. -/
theorem relay_update_characterisation (fd : FrameData) :
    UdpBallColorModule.update fd =
      fd.balls.flatMap (fun b =>
        [{ ip := "10.54.136." ++ b.id, data := brightnessPacket },
         { ip := "10.54.136." ++ b.id, data := bluePacket }]) ∧
    (UdpBallColorModule.update fd).length = 2 * fd.balls.length := by
  have h := foldl_append_pairs
    (fun b : Ball => ({ ip := "10.54.136." ++ b.id, data := brightnessPacket } : SentPacket))
    (fun b : Ball => ({ ip := "10.54.136." ++ b.id, data := bluePacket } : SentPacket))
    fd.balls []
  constructor
  · simpa using h
  · have h1 : UdpBallColorModule.update fd =
        fd.balls.flatMap (fun b =>
          [{ ip := "10.54.136." ++ b.id, data := brightnessPacket },
           { ip := "10.54.136." ++ b.id, data := bluePacket }]) := by simpa using h
    rw [h1]
    exact flatMap_pairs_length _ _ fd.balls

/-! ## Claim theorems: C6 (relay module color packet) -/

/-- Claim C6: for every send-color command with byte-range components, the
relay module sends exactly one datagram, whose payload is the fixed 12-byte
big-endian packet `[66][uint32 0][0][uint16 0][0x0A][R][G][B]` (the layout
of `UdpSender::send_rgb`), addressed to the IP obtained by substituting the
command's target identity into the low-order octet of the subnet prefix
`10.54.136.`. -/
theorem relay_color_packet (cmd : CommandRequest)
    (h : cmd.ctype = .SEND_COLOR_COMMAND)
    (hr : cmd.color_command.r < 256) (hg : cmd.color_command.g < 256)
    (hb : cmd.color_command.b < 256) :
    UdpBallColorModule.processCommand cmd =
      [{ ip := "10.54.136." ++ cmd.color_command.ball_id
         data := send_rgb_packet cmd.color_command.r cmd.color_command.g
           cmd.color_command.b }] ∧
    (send_rgb_packet cmd.color_command.r cmd.color_command.g cmd.color_command.b).length
      = 12 := by
  constructor
  · simp only [UdpBallColorModule.processCommand]
    rw [if_pos h]
    simp [send_rgb_packet, Nat.mod_eq_of_lt hr, Nat.mod_eq_of_lt hg, Nat.mod_eq_of_lt hb]
  · rfl

/-- Witness for C6 at the concrete command `colorCmd0` (target "203",
RGB (17, 34, 51)). -/
theorem relay_color_packet_witness :
    UdpBallColorModule.processCommand colorCmd0 =
      [{ ip := "10.54.136." ++ colorCmd0.color_command.ball_id
         data := send_rgb_packet colorCmd0.color_command.r colorCmd0.color_command.g
           colorCmd0.color_command.b }] ∧
    (send_rgb_packet colorCmd0.color_command.r colorCmd0.color_command.g
      colorCmd0.color_command.b).length = 12 :=
  relay_color_packet colorCmd0 rfl (by decide) (by decide) (by decide)

/-! ## Claim theorems: C1 (LOAD_MODULE with an unknown name) -/

/-- Claim C1 counterexample: a `LOAD_MODULE` naming an unknown variant does
return a failure response, but it does not leave the previously active
module untouched: the slot, previously holding the relay module, ends up
empty, because `active_module_ = create_module(command)` assigns the null
factory result before it is tested. -/
theorem load_unknown_destroys_active_module :
    (processExternalCommand (some .udpBallColorModule) loadBogusCmd).2.1.success = false ∧
    (processExternalCommand (some .udpBallColorModule) loadBogusCmd).1 ≠
      some Module.udpBallColorModule := by
  decide

/-- Claim C1, amended: for every `LOAD_MODULE` whose module name is not a
recognized variant, the command processor returns a failure response, but
the active-module slot is overwritten with the null factory result: a
previously active module is destroyed (with no cleanup call) and the slot
is left empty. -/
theorem load_unknown_clears_slot (active : Option Module) (cmd : CommandRequest)
    (h : cmd.ctype = .LOAD_MODULE)
    (h1 : cmd.module_name ≠ "UdpBallColorModule")
    (h2 : cmd.module_name ≠ "PositionToRgbModule") :
    processExternalCommand active cmd =
      (none, { success := false, message := "Unknown module: " ++ cmd.module_name }, []) := by
  unfold processExternalCommand
  rw [h]
  unfold create_module
  rw [if_neg h1, if_neg h2]

/-- Witness for C1's amended theorem: loading "SomeOtherModule" while the
relay module is active fails and empties the slot. -/
theorem load_unknown_clears_slot_witness :
    processExternalCommand (some Module.udpBallColorModule) loadBogusCmd =
      (none, { success := false, message := "Unknown module: " ++ loadBogusCmd.module_name },
        []) :=
  load_unknown_clears_slot (some Module.udpBallColorModule) loadBogusCmd rfl
    (by decide) (by decide)

/-! ## Claim theorems: C9 (UNLOAD_MODULE) -/

/-- Claim C9 counterexample: `UNLOAD_MODULE` with no active module does
return a failure, but its message is "No active module", not the claim's
exact "no active module". -/
theorem unload_without_module_message :
    (processExternalCommand none unloadCmd).2.1 =
      { success := false, message := "No active module" } ∧
    "No active module" ≠ "no active module" := by
  decide

/-- Claim C9, amended: for every `UNLOAD_MODULE` request, if a module is
active its cleanup is called, the slot is cleared and the response is a
success; if no module is active the response is a failure carrying the
specific message "No active module" (capital N) and the slot stays empty. -/
theorem unload_module_spec (active : Option Module) (cmd : CommandRequest)
    (h : cmd.ctype = .UNLOAD_MODULE) :
    (∀ m, active = some m →
      processExternalCommand active cmd =
        (none, { success := true, message := "Module unloaded" }, [.cleanupCalled m])) ∧
    (active = none →
      processExternalCommand active cmd =
        (none, { success := false, message := "No active module" }, [])) := by
  unfold processExternalCommand
  rw [h]
  constructor
  · intro m hm
    rw [hm]
  · intro hm
    rw [hm]

/-- Witness for C9's amended theorem: unloading while the relay module is
active cleans it up and succeeds. -/
theorem unload_module_spec_witness :
    processExternalCommand (some Module.udpBallColorModule) unloadCmd =
      (none, { success := true, message := "Module unloaded" },
        [ModuleEvent.cleanupCalled Module.udpBallColorModule]) :=
  (unload_module_spec (some Module.udpBallColorModule) unloadCmd rfl).1
    Module.udpBallColorModule rfl

/-! ## Lemmas about settings persistence -/

theorem docFind_cons_ne (n : String) (e : SettingsEntry)
    (doc : List (String × SettingsEntry)) (name : String) (h : name ≠ n) :
    docFind ((n, e) :: doc) name = docFind doc name := by
  unfold docFind
  rw [List.find?_cons_of_neg]
  simp only [beq_iff_eq]
  exact fun hh => h hh.symm

theorem loadSettings_cons_ne (n : String) (e : SettingsEntry)
    (doc : List (String × SettingsEntry)) (ts : List ColorRange)
    (h : ∀ t ∈ ts, t.name ≠ n) :
    loadSettings ((n, e) :: doc) ts = loadSettings doc ts := by
  unfold loadSettings
  apply List.map_congr_left
  intro t ht
  unfold loadColor
  rw [docFind_cons_ne n e doc t.name (h t ht)]

theorem roundTripCompatible_names :
    ∀ (cs ts : List ColorRange), roundTripCompatible cs ts = true →
      ts.map (fun t => t.name) = cs.map (fun c => c.name) := by
  intro cs
  induction cs with
  | nil =>
    intro ts h
    cases ts with
    | nil => rfl
    | cons t ts => exact absurd h (by simp [roundTripCompatible])
  | cons c cs ih =>
    intro ts h
    cases ts with
    | nil => exact absurd h (by simp [roundTripCompatible])
    | cons t ts =>
      simp only [roundTripCompatible, Bool.and_eq_true, decide_eq_true_eq] at h
      simp only [List.map_cons, ih ts h.2, h.1.1]

theorem docFind_saveSettings (cs : List ColorRange)
    (hn : (cs.map (fun c => c.name)).Nodup) :
    ∀ c ∈ cs, docFind (saveSettings cs) c.name = some (settingsEntryOf c) := by
  induction cs with
  | nil => intro c hc; exact absurd hc (by simp)
  | cons c0 cs ih =>
    simp only [List.map_cons, List.nodup_cons] at hn
    intro c hc
    rcases List.mem_cons.mp hc with hc | hc
    · subst hc
      unfold saveSettings docFind
      simp
    · have hne : c.name ≠ c0.name := by
        intro heq
        exact hn.1 (heq ▸ List.mem_map.mpr ⟨c, hc, rfl⟩)
      rw [show saveSettings (c0 :: cs) = (c0.name, settingsEntryOf c0) :: saveSettings cs
          from rfl]
      rw [docFind_cons_ne _ _ _ _ hne]
      exact ih hn.2 c hc

theorem loadSettings_saveSettings (cs : List ColorRange) :
    ∀ (target : List ColorRange), roundTripCompatible cs target = true →
      (cs.map (fun c => c.name)).Nodup →
      loadSettings (saveSettings cs) target = cs := by
  induction cs with
  | nil =>
    intro target hc _
    cases target with
    | nil => rfl
    | cons t ts => exact absurd hc (by simp [roundTripCompatible])
  | cons c cs ih =>
    intro target hc hn
    cases target with
    | nil => exact absurd hc (by simp [roundTripCompatible])
    | cons t ts =>
      simp only [roundTripCompatible, Bool.and_eq_true, Bool.or_eq_true,
        decide_eq_true_eq] at hc
      obtain ⟨⟨hname, hsecond⟩, hrest⟩ := hc
      simp only [List.map_cons, List.nodup_cons] at hn
      have hdoc : saveSettings (c :: cs) = (c.name, settingsEntryOf c) :: saveSettings cs :=
        rfl
      rw [hdoc]
      show loadColor ((c.name, settingsEntryOf c) :: saveSettings cs) t ::
          loadSettings ((c.name, settingsEntryOf c) :: saveSettings cs) ts = c :: cs
      rw [List.cons.injEq]
      constructor
      · have hfind : docFind ((c.name, settingsEntryOf c) :: saveSettings cs) t.name =
            some (settingsEntryOf c) := by
          unfold docFind
          have hfd : List.find? (fun e => e.1 == t.name)
              ((c.name, settingsEntryOf c) :: saveSettings cs) =
              some (c.name, settingsEntryOf c) :=
            List.find?_cons_of_pos _ (by simp [hname])
          rw [hfd]
          rfl
        unfold loadColor
        rw [hfind]
        by_cases h2 : 0 ≤ c.min_hsv2.1
        · simp only [settingsEntryOf, if_pos h2]
          rw [← hname]
        · rcases hsecond with h2' | hpair
          · exact absurd h2' h2
          · simp only [settingsEntryOf, if_neg h2]
            rw [← hname, hpair.1, hpair.2]
      · have hne : ∀ t' ∈ ts, t'.name ≠ c.name := by
          intro t' ht' heq
          apply hn.1
          have : t'.name ∈ ts.map (fun t => t.name) := List.mem_map.mpr ⟨t', ht', rfl⟩
          rw [roundTripCompatible_names cs ts hrest] at this
          exact heq ▸ this
        rw [loadSettings_cons_ne _ _ _ _ hne]
        exact ih ts hrest hn.2

/-! ## Claim theorems: C7 (settings save→load round trip) -/

unseal Rat.mul Rat.add Rat.sub Rat.inv in
/-- Claim C7 counterexample: saving a profile whose second interval is
disabled writes no second-interval keys, so loading the document into a
tracker that holds the same profile name but an enabled second interval
leaves that stale second interval in place: the round trip does not
reproduce the saved profile. -/
theorem settings_round_trip_fails :
    targetProfiles0.map (fun c => c.name) = savedProfiles0.map (fun c => c.name) ∧
    loadSettings (saveSettings savedProfiles0) targetProfiles0 ≠ savedProfiles0 := by
  decide

/-- Claim C7, amended: saving settings and then loading them into a tracker
holding the same profile names (in order, without duplicates) reproduces
every profile exactly, provided each profile whose second interval was
disabled at save time is loaded into a target profile already carrying that
same (disabled) second interval — e.g. the saving tracker itself or a
freshly constructed one; a target profile with a different (e.g. enabled)
second interval keeps it when the document has no second-interval keys.
A profile's second interval is written to the document exactly when it is
enabled (first component non-negative). -/
theorem settings_round_trip (cs target : List ColorRange)
    (hc : roundTripCompatible cs target = true)
    (hn : (cs.map (fun c => c.name)).Nodup) :
    loadSettings (saveSettings cs) target = cs ∧
    (∀ c ∈ cs, docFind (saveSettings cs) c.name = some (settingsEntryOf c)) ∧
    (∀ c : ColorRange, (settingsEntryOf c).hsv2.isSome = true ↔ 0 ≤ c.min_hsv2.1) := by
  refine ⟨loadSettings_saveSettings cs target hc hn, docFind_saveSettings cs hn, ?_⟩
  intro c
  by_cases h : 0 ≤ c.min_hsv2.1 <;> simp [settingsEntryOf, h]

unseal Rat.mul Rat.add Rat.sub Rat.inv in
/-- Witness for C7's amended theorem: the round trip through the saving
tracker itself reproduces the profiles. -/
theorem settings_round_trip_witness :
    loadSettings (saveSettings savedProfiles0) savedProfiles0 = savedProfiles0 :=
  (settings_round_trip savedProfiles0 savedProfiles0 (by decide) (by decide)).1

/-! ## Lemmas about the DNN post-processing -/

theorem bestClassAux_fst (scores : List ℚ) :
    ∀ (m : ℚ) (cid j : ℤ), (bestClassAux scores m cid j).1 = scores.foldl max m := by
  induction scores with
  | nil => intro m cid j; rfl
  | cons s rest ih =>
    intro m cid j
    by_cases h : m < s
    · rw [show bestClassAux (s :: rest) m cid j = bestClassAux rest s (j - 4) (j + 1) from
        by simp [bestClassAux, h]]
      rw [ih, List.foldl_cons, max_eq_right h.le]
    · rw [show bestClassAux (s :: rest) m cid j = bestClassAux rest m cid (j + 1) from
        by simp [bestClassAux, h]]
      rw [ih, List.foldl_cons, max_eq_left (not_lt.mp h)]

theorem bestClass_fst (scores : List ℚ) : (bestClass scores).1 = scores.foldl max 0 :=
  bestClassAux_fst scores 0 (-1) 4

/-! ## Claim theorems: C8 (DNN postprocess) -/

/-- Claim C8: in the neural tracker's post-processing, a candidate row is
kept exactly when its highest class score exceeds the 0.25 confidence
threshold; a kept candidate's confidence is that highest score and its box
is the center-size box converted to corner form (cx − w/2, cy − h/2) and
rescaled from model resolution to frame resolution; and every object output
after the NMS collaborator (invoked with IoU threshold 0.45 and returning
in-range indices) is one of those kept candidates. -/
theorem dnn_postprocess_spec (pr : DnnParams)
    (nms : List (ℚ × ℚ × ℚ × ℚ) → List ℚ → ℚ → ℚ → List ℕ)
    (rows : List (List ℚ))
    (hnms : ∀ bs cs ct nt, ∀ i ∈ nms bs cs ct nt, i < bs.length) :
    (∀ row : List ℚ,
      (candidateOf pr row).isSome = true ↔ confidence_threshold < maxScoreOf row) ∧
    (∀ (row : List ℚ) (obj : DnnObject), candidateOf pr row = some obj →
      obj.prob = maxScoreOf row ∧
      obj.rect = ((row.getD 0 0 - row.getD 2 0 / 2) * (pr.origW / pr.modelW),
        (row.getD 1 0 - row.getD 3 0 / 2) * (pr.origH / pr.modelH),
        row.getD 2 0 * (pr.origW / pr.modelW),
        row.getD 3 0 * (pr.origH / pr.modelH))) ∧
    (∀ obj ∈ postprocess nms pr rows, ∃ row, row ∈ rows ∧ candidateOf pr row = some obj) := by
  refine ⟨?_, ?_, ?_⟩
  · intro row
    have hb : maxScoreOf row = (bestClass (row.drop 4)).1 := by
      rw [maxScoreOf]
      exact (bestClass_fst _).symm
    rw [hb]
    by_cases h : confidence_threshold < (bestClass (row.drop 4)).1
    · simp [candidateOf, h]
    · simp [candidateOf, h]
  · intro row obj h
    simp only [candidateOf] at h
    split at h
    · have hrec := Option.some.inj h
      rw [← hrec]
      refine ⟨?_, rfl⟩
      show (bestClass (row.drop 4)).1 = maxScoreOf row
      rw [maxScoreOf]
      exact bestClass_fst _
    · exact absurd h (by simp)
  · intro obj hobj
    simp only [postprocess, List.mem_map] at hobj
    obtain ⟨idx, hidx, hobj⟩ := hobj
    have hlt : idx < (rows.filterMap (candidateOf pr)).length := by
      have := hnms _ _ _ _ idx hidx
      simpa using this
    have hr : ((rows.filterMap (candidateOf pr)).map (fun c => c.rect)).getD idx
        (0, 0, 0, 0) = (rows.filterMap (candidateOf pr))[idx].rect := by
      rw [List.getD_eq_getElem _ _ (by simpa using hlt), List.getElem_map]
    have hl : ((rows.filterMap (candidateOf pr)).map (fun c => c.label)).getD idx 0 =
        (rows.filterMap (candidateOf pr))[idx].label := by
      rw [List.getD_eq_getElem _ _ (by simpa using hlt), List.getElem_map]
    have hp : ((rows.filterMap (candidateOf pr)).map (fun c => c.prob)).getD idx 0 =
        (rows.filterMap (candidateOf pr))[idx].prob := by
      rw [List.getD_eq_getElem _ _ (by simpa using hlt), List.getElem_map]
    rw [hr, hl, hp] at hobj
    have heq : (rows.filterMap (candidateOf pr))[idx] = obj := by rw [← hobj]
    have hmem : obj ∈ rows.filterMap (candidateOf pr) := heq ▸ List.getElem_mem hlt
    obtain ⟨row, hrow, hcand⟩ := List.mem_filterMap.mp hmem
    exact ⟨row, hrow, hcand⟩

unseal Rat.mul Rat.add Rat.sub Rat.inv in
/-- Witness for C8: the keep-iff-above-threshold equivalence at the concrete
candidate row `dnnRow0`, with the keep-everything NMS collaborator. -/
theorem dnn_postprocess_spec_witness :
    (candidateOf dnnParams0 dnnRow0).isSome = true ↔
      confidence_threshold < maxScoreOf dnnRow0 :=
  (dnn_postprocess_spec dnnParams0 nmsAll [dnnRow0]
    (fun bs cs ct nt i hi => by simpa [nmsAll, List.mem_range] using hi)).1 dnnRow0

end JuggleHub
